import Mathlib

/-!
Shallow embedding of the TyTools board manager (`src/board.c`), the
task/pool runtime (`src/task.c`) and the `upload` CLI command, with
theorems checking the natural-language specification against the code.

Machine integers are modelled as `Nat` (with explicit `% 2^64` where the C
code can wrap), C strings as `List Char` or `String`, NULL-able pointers as
`Option`, and fallible functions as `Except TyErr`.
-/

namespace TyTools

/-- Error kinds of the `ty_error` taxonomy (`TY_ERROR_*`). -/
inductive TyErr where
  | memory
  | param
  | range
  | mode
  | notFound
  | io
  | firmware
  | other
deriving DecidableEq, Repr

instance {ε α : Type _} [DecidableEq ε] [DecidableEq α] : DecidableEq (Except ε α)
  | .ok a, .ok b =>
    if h : a = b then .isTrue (by rw [h]) else .isFalse (by intro hc; cases hc; exact h rfl)
  | .ok _, .error _ => .isFalse (by intro hc; cases hc)
  | .error _, .ok _ => .isFalse (by intro hc; cases hc)
  | .error e, .error f =>
    if h : e = f then .isTrue (by rw [h]) else .isFalse (by intro hc; cases hc; exact h rfl)

/-! ## Model registry (`board.c` lines 54-90)

The five registered board models, in registration order of
`ty_board_models` / `signatures`.  The model structs themselves
(`_ty_teensy_*_model`) live in a file that is not part of the sources at
hand, so a model is identified by which table entry it is, and its
`code_size` field is an explicit environment parameter `codeSize` wherever
the code dereferences it. -/
inductive ModelId where
  | teensy_pp10
  | teensy_20
  | teensy_pp20
  | teensy_30
  | teensy_31
deriving DecidableEq, Repr

/-- The `signatures` table of `board.c` (lines 83-90): for each model, the
8-byte magic that `ty_board_test_firmware` searches for, in registration
order. -/
def signatures : List (ModelId × List Nat) :=
  [ (.teensy_pp10, [0x0C, 0x94, 0x00, 0x7E, 0xFF, 0xCF, 0xF8, 0x94]),
    (.teensy_20,   [0x0C, 0x94, 0x00, 0x3F, 0xFF, 0xCF, 0xF8, 0x94]),
    (.teensy_pp20, [0x0C, 0x94, 0x00, 0xFE, 0xFF, 0xCF, 0xF8, 0x94]),
    (.teensy_30,   [0x38, 0x80, 0x04, 0x40, 0x82, 0x3F, 0x04, 0x00]),
    (.teensy_31,   [0x30, 0x80, 0x04, 0x40, 0x82, 0x3F, 0x04, 0x00]) ]

/-- `model_is_valid` (`board.c` lines 277-280): a model pointer is valid when
it is non-NULL and its `code_size` is non-zero.  `codeSize` supplies the
`code_size` field of each registered model struct. -/
def model_is_valid (codeSize : ModelId → Nat) : Option ModelId → Bool
  | none => false
  | some m => codeSize m != 0

/-- The 8-byte window of `image` at offset `i`: `memcmp(f->image + i, sig->magic, 8)`
compares these bytes (shorter than 8 only past the end of the image). -/
def window (image : List Nat) (i : Nat) : List Nat :=
  (image.drop i).take 8

/-- Inner loop of `ty_board_test_firmware` (`board.c` lines 1170-1173): try
every signature in registration order against the window at offset `i`,
returning the model of the first match. -/
def matchAt (image : List Nat) (i : Nat) : Option ModelId :=
  signatures.findSome? (fun sig => if window image i = sig.2 then some sig.1 else none)

/-- Outer loop of `ty_board_test_firmware` (`board.c` line 1169):
`for (size_t i = 0; i < f->size - magic_size; i++)`.  `fuel` is the number
of remaining iterations (`bound - i`), `i` the current offset. -/
def scan (image : List Nat) : Nat → Nat → Option ModelId
  | 0, _ => none
  | fuel + 1, i =>
    match matchAt image i with
    | some m => some m
    | none => scan image fuel (i + 1)

/-- `ty_board_test_firmware` (`board.c` lines 1158-1177): if the image is
shorter than 8 bytes return NULL, otherwise scan offsets
`0 ≤ i < len - 8` and return the first signature hit. -/
def ty_board_test_firmware (image : List Nat) : Option ModelId :=
  if image.length < 8 then none
  else scan image (image.length - 8) 0

/-! ## Board aggregate and the device-added state machine (`board.c` lines 116-357) -/

/-- Board states.  The spec-visible states are online, missing and dropped;
`board.h` itself is not among the sources, so the constructor order follows
the spec's listing.  A board fresh out of `add_board` still has the
calloc-zeroed state field, which `add_interface` overwrites with online
before the board is ever published, so the zero value never escapes. -/
inductive BoardState where
  | online
  | missing
  | dropped
deriving DecidableEq, Repr

/-- Data of one opened interface as `add_interface` consumes it: the model
and decimal serial inferred by the vendor driver (`open_interface`), the
device's location, vid, pid and the capability bitset. -/
structure IfaceInfo where
  location : String
  model : Option ModelId
  serial : Nat
  vid : Nat
  pid : Nat
  capabilities : Nat
deriving DecidableEq, Repr

/-- State of one board relevant to the add-interface state machine. -/
structure Board where
  location : String
  identity : String
  serial : Nat
  vid : Nat
  pid : Nat
  model : Option ModelId
  capabilities : Nat
  state : BoardState
deriving DecidableEq, Repr

/-- Events fired through `trigger_callbacks` (`TY_BOARD_EVENT_*`). -/
inductive BoardEvent where
  | added
  | changed
  | disappeared
  | dropped
deriving DecidableEq, Repr

/-- `add_board` (`board.c` lines 116-161): a fresh board takes the
interface's location, model, serial, vid and pid, and its identity is built
by `asprintf(&board->identity, "%s#%PRIu64", board->location, board->serial)`.
The state field is left calloc-zeroed here (see `BoardState`). -/
def add_board (iface : IfaceInfo) : Board :=
  { location := iface.location
    identity := iface.location ++ "#" ++ toString iface.serial
    serial := iface.serial
    vid := iface.vid
    pid := iface.pid
    model := iface.model
    capabilities := 0
    state := .dropped }

/-- Outcome of `add_interface` when a board already exists at the device's
location: the surviving (or newly created) board, whether the old board was
dropped and replaced, and the events fired. -/
structure AddIfaceResult where
  board : Board
  replaced : Bool
  events : List BoardEvent
deriving DecidableEq, Repr

/-- `add_interface` (`board.c` lines 282-357), specialised to the case where
`find_board` found an existing board at the interface's location.

The replacement heuristic (lines 301-308) drops and replaces the board when
`(model_is_valid(iface->model) && model_is_valid(board->model) &&
iface->model != board->model) || iface->serial != board->serial`; otherwise a
vid/pid change runs `close_board` (all interfaces released, capabilities
cleared, state missing, `Disappeared` fired) and records the new vid/pid
(lines 309-314); the retained board then upgrades its model and serial from
the interface when valid/nonzero (lines 318-321), links the interface, ORs in
its capabilities, goes online, and fires `Changed` (lines 323-350). -/
def add_interface_existing (codeSize : ModelId → Nat) (board : Board) (iface : IfaceInfo) :
    AddIfaceResult :=
  if (model_is_valid codeSize iface.model && model_is_valid codeSize board.model
        && decide (iface.model ≠ board.model))
      || decide (iface.serial ≠ board.serial) then
    let fresh := add_board iface
    { board := { fresh with capabilities := iface.capabilities, state := .online }
      replaced := true
      events := [.dropped, .added] }
  else
    let closing :=
      if board.vid ≠ iface.vid ∨ board.pid ≠ iface.pid then
        ({ board with state := BoardState.missing, capabilities := 0,
                      vid := iface.vid, pid := iface.pid },
         [BoardEvent.disappeared])
      else (board, [])
    let b2 := { closing.1 with
      model := if model_is_valid codeSize iface.model then iface.model else closing.1.model
      serial := if iface.serial ≠ 0 then iface.serial else closing.1.serial
      capabilities := closing.1.capabilities ||| iface.capabilities
      state := .online }
    { board := b2, replaced := false, events := closing.2 ++ [.changed] }

/-- Modelled from the spec: the replacement condition as claim C1 words it —
a valid model different from the board's valid model, or a *nonzero* serial
different from the board's *nonzero* serial. -/
def claim_replace_cond (codeSize : ModelId → Nat) (board : Board) (iface : IfaceInfo) : Prop :=
  (model_is_valid codeSize iface.model = true ∧ model_is_valid codeSize board.model = true ∧
      iface.model ≠ board.model) ∨
  (iface.serial ≠ 0 ∧ board.serial ≠ 0 ∧ iface.serial ≠ board.serial)

instance (codeSize : ModelId → Nat) (board : Board) (iface : IfaceInfo) :
    Decidable (claim_replace_cond codeSize board iface) := by
  unfold claim_replace_cond; infer_instance

/-- Modelled from the spec: the identity string as claim C5 words it, with
the `#<serial>` suffix omitted when the serial is zero. -/
def spec_identity (location : String) (serial : Nat) : String :=
  if serial = 0 then location else location ++ "#" ++ toString serial

/-- An arbitrary concrete `code_size` environment: every registered model
struct has a nonzero `code_size`. -/
def codeSize0 : ModelId → Nat := fun _ => 262144

/-- A concrete online board used in counterexamples. -/
def board0 : Board :=
  { location := "usb-1-2", identity := "usb-1-2#5", serial := 5, vid := 0x16C0, pid := 0x0483,
    model := some .teensy_31, capabilities := 8, state := .online }

/-- A concrete incoming interface at `board0`'s location whose serial reads
as 0 (unreadable USB string descriptor) and whose model agrees. -/
def iface0 : IfaceInfo :=
  { location := "usb-1-2", model := some .teensy_31, serial := 0, vid := 0x16C0, pid := 0x0478,
    capabilities := 1 }

/-! ## Manager callbacks (`board.c` lines 94-114) -/

/-- One registered manager callback for a single `trigger_callbacks` run:
its registration id and the value `(*callback->f)(board, event, udata)`
returns for this event. -/
structure Callback where
  id : Nat
  ret : Int
deriving DecidableEq, Repr

/-- `trigger_callbacks` (`board.c` lines 100-114): walk the callback list in
registration order; a negative return aborts the walk and is returned; a
non-zero (hence positive, after the previous check) return removes the
callback (`drop_callback`).  Returns the result, the callback list after the
run, and the ids invoked in order. -/
def trigger_callbacks : List Callback → Int × List Callback × List Nat
  | [] => (0, [], [])
  | c :: rest =>
    if c.ret < 0 then (c.ret, c :: rest, [c.id])
    else
      let r := trigger_callbacks rest
      if c.ret ≠ 0 then (r.1, r.2.1, c.id :: r.2.2)
      else (r.1, c :: r.2.1, c.id :: r.2.2)

/-! ## Identity parsing and matching (`board.c` lines 739-803) -/

/-- C `isspace` in the default locale, as `strtoull` skips it. -/
def isSpaceC (c : Char) : Bool :=
  c == ' ' || c == '\t' || c == '\n' || c == Char.ofNat 11 || c == Char.ofNat 12 || c == '\r'

/-- C `strtoull(s, &end, 10)`: skip whitespace, take an optional sign, then
decimal digits; the value clamps to `ULLONG_MAX` on overflow and a leading
minus negates modulo `2^64`.  Returns the value, the rest of the string
(where `end` points) and whether any conversion was performed (when none is,
`end` is reset to the start, which the caller detects as `end == ptr`). -/
def strtoull10 (s : List Char) : Nat × List Char × Bool :=
  let afterSpace := s.dropWhile isSpaceC
  let signed :=
    match afterSpace with
    | '-' :: t => (true, t)
    | '+' :: t => (false, t)
    | t => (false, t)
  let digs := signed.2.takeWhile (fun c => c.isDigit)
  if digs.isEmpty then (0, s, false)
  else
    let acc := digs.foldl (fun a c => a * 10 + (c.toNat - 48)) 0
    let clamped := if acc ≥ 2 ^ 64 then 2 ^ 64 - 1 else acc
    let v := if signed.1 then (2 ^ 64 - clamped % 2 ^ 64) % 2 ^ 64 else clamped
    (v, signed.2.drop digs.length, true)

/-- C `strchr(id, '#')` as a split: `some (before, after)` when a `'#'`
exists (at the first occurrence), `none` when it does not. -/
def splitAtHash : List Char → Option (List Char × List Char)
  | [] => none
  | c :: rest =>
    if c == '#' then some ([], rest)
    else (splitAtHash rest).map (fun p => (c :: p.1, p.2))

/-- `parse_identity` (`board.c` lines 739-776): split the spec at the first
`'#'`; the location part is NULL only when the spec starts with `'#'`
(`ptr != id`); when a `'#'` exists the serial part goes through `strtoull`
and the parse fails with a `param` error when nothing was converted
(`end == ptr`) or trailing characters remain (`*end`). -/
def parse_identity (id : List Char) : Except TyErr (Option (List Char) × Nat) :=
  match splitAtHash id with
  | none => .ok (some id, 0)
  | some (before, after) =>
    let location := if before.isEmpty then none else some before
    let conv := strtoull10 after
    if !conv.2.2 || !conv.2.1.isEmpty then .error .param
    else .ok (location, conv.1)

/-- `ty_board_matches_identity` (`board.c` lines 778-803), with the board
represented by its location and serial: a NULL or empty spec matches; a
parse failure propagates; otherwise the board matches unless a present
location part differs from the board's location or a nonzero serial differs
from the board's serial. -/
def ty_board_matches_identity (bloc : List Char) (bserial : Nat) (id : Option (List Char)) :
    Except TyErr Bool :=
  match id with
  | none => .ok true
  | some s =>
    if s.isEmpty then .ok true
    else
      match parse_identity s with
      | .error e => .error e
      | .ok (location, serial) =>
        if (match location with | some l => decide (l ≠ bloc) | none => false) then .ok false
        else if serial != 0 && serial != bserial then .ok false
        else .ok true

/-! ## Capability-gated façades (`board.c` lines 1020-1156) -/

/-- C `strlen` on a byte buffer: the number of bytes before the first NUL. -/
def strlenC (buf : List Nat) : Nat :=
  (buf.takeWhile (fun b => b != 0)).length

/-- `ty_board_serial_write` (`board.c` lines 1056-1075): fail with a `mode`
error when no interface carries the serial capability; otherwise pass the
buffer to the vtable's `serial_write` with `size` bytes, where a zero `size`
is first replaced by `strlen(buf)`.  The returned value is the byte count
the vtable call receives. -/
def ty_board_serial_write (hasSerialIface : Bool) (buf : List Nat) (size : Nat) :
    Except TyErr Nat :=
  if !hasSerialIface then .error .mode
  else .ok (if size = 0 then strlenC buf else size)

/-- `ty_board_upload` (`board.c` lines 1077-1122): fail with `mode` when no
interface carries the upload capability or the board model is unknown or
invalid; fail with `range` when the firmware is bigger than the model's
`code_size`; unless the `TY_BOARD_UPLOAD_NOCHECK` flag is set, fail with
`firmware` when `ty_board_test_firmware` recognises no model or a model
other than the board's.  Only when every check passes is the vtable `upload`
invoked (`.ok ()`). -/
def ty_board_upload (codeSize : ModelId → Nat) (hasUploadIface : Bool)
    (bmodel : Option ModelId) (fw : List Nat) (nocheck : Bool) : Except TyErr Unit :=
  if !hasUploadIface then .error .mode
  else
    match bmodel with
    | none => .error .mode
    | some m =>
      if codeSize m = 0 then .error .mode
      else if fw.length > codeSize m then .error .range
      else if !nocheck then
        match ty_board_test_firmware fw with
        | none => .error .firmware
        | some guess => if guess ≠ m then .error .firmware else .ok ()
      else .ok ()

/-! ## Task runtime (`task.c`)

`task.h` itself is not among the sources; the status enumeration is
modelled from the spec, which orders statuses
`ready < pending < running < finished`, consistently with the asserts
`status <= TY_TASK_STATUS_PENDING` in `run_task` and
`status > TY_TASK_STATUS_READY` in `ty_task_wait`. -/

/-- Modelled from the spec: the `ty_task_status` enumeration, in the spec's
order `ready < pending < running < finished`. -/
inductive TaskStatus where
  | ready
  | pending
  | running
  | finished
deriving DecidableEq, Repr

/-- Numeric value of a status, for the spec's total order. -/
def TaskStatus.toNat : TaskStatus → Nat
  | .ready => 0
  | .pending => 1
  | .running => 2
  | .finished => 3

/-- The slice of `struct ty_task` these claims depend on: the current
status, whether the task sits in a pool's `pending_tasks` queue, and
whether a `finalize` callable is still attached. -/
structure Task where
  status : TaskStatus
  inQueue : Bool
  finalizeAttached : Bool
deriving DecidableEq, Repr

/-- A task fresh out of `ty_task_new` with a finalize callable attached
before start: status ready (calloc zero), not queued. -/
def newTask (fin : Bool) : Task :=
  { status := .ready, inQueue := false, finalizeAttached := fin }

/-- `run_task` (`task.c` lines 274-292): emit `Status{running}`, invoke
`run`, invoke `finalize` if attached and clear it, emit `Status{finished}`.
Returns the task afterwards, the writes to `task->status` in order, and how
many times `finalize` was invoked.  The entry assert requires
`status <= TY_TASK_STATUS_PENDING`. -/
def run_task (t : Task) : Task × List TaskStatus × Nat :=
  ({ t with status := .finished, finalizeAttached := false },
   [.running, .finished],
   if t.finalizeAttached then 1 else 0)

/-- Final `ty_task_unref` (`task.c` lines 235-255) once the refcount hits
zero: the destructor runs `result_cleanup`, `user_cleanup`, and
`task_finalize` when still attached.  Returns how many times `finalize` is
invoked. -/
def task_unref_finalize_calls (t : Task) : Nat :=
  if t.finalizeAttached then 1 else 0

/-- Total `finalize` invocations over a task's lifetime: either the task is
run (`run_task`, which clears the callable) and later destroyed, or it is
destroyed without ever running. -/
def finalize_calls_lifecycle (t : Task) (ran : Bool) : Nat :=
  if ran then (run_task t).2.2 + task_unref_finalize_calls (run_task t).1
  else task_unref_finalize_calls t

/-- Operations of the sequential task lifecycle that write `task->status`. -/
inductive TaskOp where
  | start
  | workerRun
  | waitFinishedInf
deriving DecidableEq, Repr

/-- One sequential operation on a task, returning the new task state and
the writes to `task->status` in order; `none` when the operation's entry
assert fails or no queued task exists for the worker.

* `start`: `ty_task_start` (`task.c` lines 372-405) — asserts status ready,
  enqueues the task and sets status pending.
* `workerRun`: a worker thread (`task_thread`, lines 294-341) pops the task
  from `pending_tasks` and calls `run_task`.
* `waitFinishedInf`: `ty_task_wait(task, FINISHED, -1)` (lines 407-449) —
  when the task is still pending and queued, it is removed from the queue
  and its status is written back to ready (line 424), then run inline; when
  already ready it is run inline; otherwise the call just waits on the
  condvar and writes nothing. -/
def TaskOp.step (t : Task) : TaskOp → Option (Task × List TaskStatus)
  | .start =>
    if t.status = .ready then
      some ({ t with status := .pending, inQueue := true }, [.pending])
    else none
  | .workerRun =>
    if t.inQueue then
      let r := run_task { t with inQueue := false }
      some (r.1, r.2.1)
    else none
  | .waitFinishedInf =>
    if t.status = .pending then
      if t.inQueue then
        let r := run_task { t with status := .ready, inQueue := false }
        some (r.1, .ready :: r.2.1)
      else some (t, [])
    else if t.status = .ready then
      let r := run_task t
      some (r.1, r.2.1)
    else some (t, [])

/-- Run a sequence of lifecycle operations, concatenating the status
writes. -/
def runOps : Task → List TaskOp → Option (Task × List TaskStatus)
  | t, [] => some (t, [])
  | t, op :: ops =>
    match op.step t with
    | none => none
    | some (t1, w1) =>
      match runOps t1 ops with
      | none => none
      | some (t2, w2) => some (t2, w1 ++ w2)

/-- The claim's monotonicity order on adjacent status writes, relaxed
exactly where the code demotes: a decrease is allowed only from pending
back to ready. -/
def StatusStep (a b : TaskStatus) : Prop :=
  b.toNat < a.toNat → a = .pending ∧ b = .ready

instance (a b : TaskStatus) : Decidable (StatusStep a b) :=
  inferInstanceAs (Decidable (b.toNat < a.toNat → a = .pending ∧ b = .ready))

/-- Queue-status coherence: a task sitting in `pending_tasks` has status
pending (it was enqueued by `ty_task_start` and any dequeue clears the
flag). -/
def QueueInv (t : Task) : Prop := t.inQueue = true → t.status = .pending

/-! ## Worker pool (`task.c` lines 16-144, 343-405) -/

/-- The slice of `struct ty_pool` these claims depend on.  `pending` holds
task ids; `ty_list_add` pushes at the head. -/
structure Pool where
  maxThreads : Nat
  started : Nat
  busy : Nat
  pending : List Nat
deriving DecidableEq, Repr

/-- `start_thread` (`task.c` lines 343-370): allocate a thread record and
spawn an OS thread; on success `started` and `busy` are incremented.
`spawnErr` is the environment's verdict for this spawn attempt (allocation
or `ty_thread_create` failure), `none` meaning success. -/
def start_thread (spawnErr : Option TyErr) (p : Pool) : Except TyErr Pool :=
  match spawnErr with
  | some e => .error e
  | none => .ok { p with started := p.started + 1, busy := p.busy + 1 }

/-- `ty_task_start` (`task.c` lines 372-405), pool side: when every started
thread is busy and the limit allows one more, spawn a worker; a spawn
failure goes to `cleanup` and is returned *before* the task is referenced
and enqueued.  On success the task id is pushed onto `pending_tasks`
(`ty_list_add` — head) and the task becomes pending. -/
def ty_task_start_pool (spawnErr : Option TyErr) (p : Pool) (taskId : Nat) :
    Except TyErr Pool :=
  if p.busy = p.started ∧ p.started < p.maxThreads then
    match start_thread spawnErr p with
    | .error e => .error e
    | .ok p1 => .ok { p1 with pending := taskId :: p1.pending }
  else .ok { p with pending := taskId :: p.pending }

/-- Loop body of `ty_pool_set_max_threads` (`task.c` lines 123-134): walk
the pending list, spawning threads while `started < max`; on a spawn
failure the error is downgraded to success when `started` is non-zero, and
either way control jumps to `cleanup`, skipping the `max_threads`
assignment.  Returns the pool, the error to propagate (if any), and whether
the loop completed (so that `max_threads` is assigned). -/
def set_max_go (spawnErr : Nat → Option TyErr) (max : Nat) :
    List Nat → Nat → Pool → Pool × Option TyErr × Bool
  | [], _, p => (p, none, true)
  | _ :: rest, k, p =>
    if p.started ≥ max then (p, none, true)
    else
      match spawnErr k with
      | some e => (p, if p.started ≠ 0 then none else some e, false)
      | none =>
        set_max_go spawnErr max rest (k + 1)
          { p with started := p.started + 1, busy := p.busy + 1 }

/-- `ty_pool_set_max_threads` (`task.c` lines 115-144): when raising the
limit, pre-spawn workers for queued tasks via the loop; when lowering it,
wake the workers so the surplus exits.  The `max_threads` field is assigned
only when no spawn failed. -/
def ty_pool_set_max_threads (spawnErr : Nat → Option TyErr) (p : Pool) (max : Nat) :
    Except TyErr Pool :=
  if max > p.maxThreads then
    let r := set_max_go spawnErr max p.pending 0 p
    match r.2.1 with
    | some e => .error e
    | none => .ok (if r.2.2 then { r.1 with maxThreads := max } else r.1)
  else .ok { p with maxThreads := max }

/-- A concrete pool with one busy worker, used in counterexamples. -/
def pool1 : Pool := { maxThreads := 2, started := 1, busy := 1, pending := [] }

/-! ## Theorems -/

/-- Offsets `i, i+1, ..., i+fuel-1` all miss, so the scan loop falls through. -/
lemma scan_eq_none (image : List Nat) :
    ∀ fuel i, (∀ k, k < fuel → matchAt image (i + k) = none) → scan image fuel i = none := by
  intro fuel
  induction fuel with
  | zero => intro i _; rfl
  | succ n ih =>
    intro i h
    have h0 : matchAt image i = none := by simpa using h 0 (Nat.succ_pos n)
    have hrest : ∀ k, k < n → matchAt image ((i + 1) + k) = none := by
      intro k hk
      have := h (k + 1) (Nat.succ_lt_succ hk)
      simpa [Nat.add_assoc, Nat.add_comm 1 k] using this
    simp [scan, h0, ih (i + 1) hrest]

/-- The first hit of the scan loop, `k` steps in, is returned. -/
lemma scan_first_hit (image : List Nat) :
    ∀ fuel i k m, k < fuel → (∀ j, j < k → matchAt image (i + j) = none) →
      matchAt image (i + k) = some m → scan image fuel i = some m := by
  intro fuel
  induction fuel with
  | zero => intro i k m hk; exact absurd hk (Nat.not_lt_zero k)
  | succ n ih =>
    intro i k m hk hbef hhit
    cases k with
    | zero =>
      simp only [Nat.add_zero] at hhit
      simp [scan, hhit]
    | succ k' =>
      have h0 : matchAt image i = none := by simpa using hbef 0 (Nat.succ_pos k')
      have hbef' : ∀ j, j < k' → matchAt image ((i + 1) + j) = none := by
        intro j hj
        have := hbef (j + 1) (Nat.succ_lt_succ hj)
        simpa [Nat.add_assoc, Nat.add_comm 1 j] using this
      have hhit' : matchAt image ((i + 1) + k') = some m := by
        simpa [Nat.add_assoc, Nat.add_comm 1 k'] using hhit
      simp [scan, h0, ih (i + 1) k' m (Nat.lt_of_succ_lt_succ hk) hbef' hhit']

/-- C2 (counterexample): the claim says the scan examines every offset from 0
through `len - 8` inclusive, so an 8-byte image equal to a signature is
detected.  On the 8-byte image equal to the first registered signature, the
signature matches at offset `0 = len - 8`, yet `ty_board_test_firmware`
returns none: the loop `for (i = 0; i < f->size - magic_size; i++)` never
examines offset `len - 8`. -/
theorem test_firmware_boundary_cex :
    ([0x0C, 0x94, 0x00, 0x7E, 0xFF, 0xCF, 0xF8, 0x94] : List Nat).length = 8 ∧
    matchAt [0x0C, 0x94, 0x00, 0x7E, 0xFF, 0xCF, 0xF8, 0x94] 0 = some ModelId.teensy_pp10 ∧
    ty_board_test_firmware [0x0C, 0x94, 0x00, 0x7E, 0xFF, 0xCF, 0xF8, 0x94] = none := by
  refine ⟨rfl, by decide, by decide⟩

/-- C2 (amended): `ty_board_test_firmware` examines exactly the offsets `i`
with `i + 8 < len` (that is, 0 through `len - 9` inclusive; any image of
length at most 8 yields none), comparing the 8-byte window at each offset
against every model's signature in registration order, and returns the model
found at the earliest hitting offset. -/
theorem test_firmware_scan_spec (image : List Nat) :
    ((∀ i, i + 8 < image.length → matchAt image i = none) →
        ty_board_test_firmware image = none) ∧
    (∀ i m, i + 8 < image.length → (∀ j, j < i → matchAt image j = none) →
        matchAt image i = some m → ty_board_test_firmware image = some m) := by
  constructor
  · intro h
    unfold ty_board_test_firmware
    split
    · rfl
    · rename_i hlen
      apply scan_eq_none
      intro k hk
      apply h
      omega
  · intro i m hi hbef hhit
    unfold ty_board_test_firmware
    split
    · rename_i hlen; omega
    · rename_i hlen
      exact scan_first_hit image (image.length - 8) 0 i m (by omega)
        (by simpa using hbef) (by simpa using hhit)

/-- C2 (witness): the amended scan characterization applied to a concrete
9-byte image holding the `teensy_31` signature at offset 0. -/
theorem test_firmware_scan_spec_witness :
    ty_board_test_firmware [0x30, 0x80, 0x04, 0x40, 0x82, 0x3F, 0x04, 0x00, 0x00] =
      some ModelId.teensy_31 :=
  (test_firmware_scan_spec _).2 0 ModelId.teensy_31 (by decide)
    (fun j hj => absurd hj (Nat.not_lt_zero j)) (by decide)

/-- C1 (counterexample): the claim allows dropping the existing board only
when the incoming valid model differs or when the two *nonzero* serials
differ, and says the board is retained when one of the serials is zero.  At
`board0` (serial 5) and `iface0` (serial 0, same valid model), the claim's
condition is false, yet `add_interface` drops and replaces the board: the
code's heuristic compares serials with plain `!=`, without the nonzero
qualification. -/
theorem add_interface_zero_serial_cex :
    (add_interface_existing codeSize0 board0 iface0).replaced = true ∧
    ¬ claim_replace_cond codeSize0 board0 iface0 := by
  constructor
  · decide
  · decide

/-- C1 (amended): the existing board is dropped and replaced iff the
interface carries a valid model different from the board's valid model or
its serial differs at all from the board's serial (zero serials included);
when neither holds the board is retained, and the `Disappeared` close is
fired before the `Changed` reattachment exactly when the (vid, pid) pair
changed. -/
theorem add_interface_replace_spec (codeSize : ModelId → Nat) (board : Board)
    (iface : IfaceInfo) :
    ((add_interface_existing codeSize board iface).replaced = true ↔
      ((model_is_valid codeSize iface.model = true ∧
          model_is_valid codeSize board.model = true ∧ iface.model ≠ board.model) ∨
        iface.serial ≠ board.serial)) ∧
    ((add_interface_existing codeSize board iface).replaced = false →
      (((add_interface_existing codeSize board iface).events =
            [BoardEvent.disappeared, BoardEvent.changed] ↔
          (board.vid ≠ iface.vid ∨ board.pid ≠ iface.pid)) ∧
        ((add_interface_existing codeSize board iface).events = [BoardEvent.changed] ↔
          (board.vid = iface.vid ∧ board.pid = iface.pid)))) := by
  by_cases hrep : ((model_is_valid codeSize iface.model &&
      model_is_valid codeSize board.model && decide (iface.model ≠ board.model))
        || decide (iface.serial ≠ board.serial)) = true
  · have hd : (model_is_valid codeSize iface.model = true ∧
        model_is_valid codeSize board.model = true ∧ iface.model ≠ board.model) ∨
        iface.serial ≠ board.serial := by
      simp only [Bool.or_eq_true, Bool.and_eq_true, decide_eq_true_eq] at hrep
      tauto
    refine ⟨?_, ?_⟩
    · simp only [add_interface_existing, hrep, if_true]
      simpa using hd
    · intro h
      simp only [add_interface_existing, hrep, if_true] at h
      simp at h
  · have hfalse : ((model_is_valid codeSize iface.model &&
        model_is_valid codeSize board.model && decide (iface.model ≠ board.model))
          || decide (iface.serial ≠ board.serial)) = false :=
      Bool.eq_false_iff.mpr hrep
    have hnd : ¬ ((model_is_valid codeSize iface.model = true ∧
        model_is_valid codeSize board.model = true ∧ iface.model ≠ board.model) ∨
        iface.serial ≠ board.serial) := by
      intro hp
      apply hrep
      simp only [Bool.or_eq_true, Bool.and_eq_true, decide_eq_true_eq]
      tauto
    refine ⟨?_, ?_⟩
    · simp only [add_interface_existing, hfalse, Bool.false_eq_true, if_false]
      simpa using hnd
    · intro _
      by_cases hvp : board.vid ≠ iface.vid ∨ board.pid ≠ iface.pid
      · constructor
        · simp only [add_interface_existing, hfalse, Bool.false_eq_true, if_false, if_pos hvp]
          simpa using hvp
        · simp only [add_interface_existing, hfalse, Bool.false_eq_true, if_false, if_pos hvp]
          refine iff_of_false (by simp) ?_
          rintro ⟨h1, h2⟩
          rcases hvp with h | h
          · exact h h1
          · exact h h2
      · have hvp' : board.vid = iface.vid ∧ board.pid = iface.pid := by
          push_neg at hvp; exact hvp
        constructor
        · simp only [add_interface_existing, hfalse, Bool.false_eq_true, if_false, if_neg hvp]
          refine iff_of_false (by simp) ?_
          rintro (h | h)
          · exact h hvp'.1
          · exact h hvp'.2
        · simp only [add_interface_existing, hfalse, Bool.false_eq_true, if_false, if_neg hvp]
          simpa using hvp'

/-- C1 (witness): the amended replacement rule applied at `board0` and an
interface carrying the same serial but a different valid model. -/
theorem add_interface_replace_spec_witness :
    (add_interface_existing codeSize0 board0
        { iface0 with serial := 5, model := some ModelId.teensy_30 }).replaced = true :=
  (add_interface_replace_spec codeSize0 board0
      { iface0 with serial := 5, model := some ModelId.teensy_30 }).1.mpr
    (Or.inl ⟨by decide, by decide, by decide⟩)

/-- C5 (counterexample): the claim says the `#<serial>` suffix is omitted
when the serial is zero.  `add_board` builds the identity with
`asprintf("%s#%PRIu64", location, serial)` unconditionally: a board created
from `iface0` (serial 0) gets identity `"usb-1-2#0"`, not `"usb-1-2"`. -/
theorem board_identity_zero_serial_cex :
    (add_board iface0).serial = 0 ∧
    (add_board iface0).identity = "usb-1-2#0" ∧
    (add_board iface0).identity ≠
      spec_identity (add_board iface0).location (add_board iface0).serial := by
  refine ⟨rfl, rfl, by decide⟩

/-- C5 (amended): every board's identity is assigned at creation as
`"<location>#<serial>"` with the suffix always present (`"#0"` included when
the serial is zero), and the identity never mutates afterwards: the
retained-board path of `add_interface` (close, vid/pid update, model/serial
upgrade) leaves it unchanged. -/
theorem board_identity_spec (codeSize : ModelId → Nat) (board : Board) (iface : IfaceInfo)
    (h : (add_interface_existing codeSize board iface).replaced = false) :
    (add_board iface).identity = iface.location ++ "#" ++ toString iface.serial ∧
    (add_interface_existing codeSize board iface).board.identity = board.identity := by
  refine ⟨rfl, ?_⟩
  by_cases hrep : ((model_is_valid codeSize iface.model &&
      model_is_valid codeSize board.model && decide (iface.model ≠ board.model))
        || decide (iface.serial ≠ board.serial)) = true
  · simp only [add_interface_existing, hrep, if_true] at h
    simp at h
  · have hfalse := Bool.eq_false_iff.mpr hrep
    by_cases hvp : board.vid ≠ iface.vid ∨ board.pid ≠ iface.pid
    · simp only [add_interface_existing, hfalse, Bool.false_eq_true, if_false, if_pos hvp]
    · simp only [add_interface_existing, hfalse, Bool.false_eq_true, if_false, if_neg hvp]

/-- C5 (witness): the amended identity rule applied at `board0` and a
matching interface (serial 5, same model): the board is retained and its
identity survives unchanged. -/
theorem board_identity_spec_witness :
    (add_interface_existing codeSize0 board0 { iface0 with serial := 5 }).board.identity =
      board0.identity :=
  (board_identity_spec codeSize0 board0 { iface0 with serial := 5 } (by decide)).2

/-- All callbacks return non-negatively: every one is invoked in order, the
positive returners are dropped, the zero returners stay, and 0 is returned. -/
lemma trigger_callbacks_nonneg (cbs : List Callback) (h : ∀ c ∈ cbs, 0 ≤ c.ret) :
    trigger_callbacks cbs =
      (0, cbs.filter (fun c => c.ret == 0), cbs.map (fun c => c.id)) := by
  induction cbs with
  | nil => rfl
  | cons c rest ih =>
    have hc : 0 ≤ c.ret := h c (List.mem_cons_self c rest)
    have hrest := ih (fun d hd => h d (List.mem_cons_of_mem c hd))
    by_cases hz : c.ret = 0
    · simp [trigger_callbacks, hrest, hz, List.filter]
    · have hlt : ¬ c.ret < 0 := not_lt.mpr hc
      have hb : (c.ret == 0) = false := beq_eq_false_iff_ne.mpr hz
      simp [trigger_callbacks, hrest, hz, hlt, hb, List.filter]

/-- A negative returner after a non-negative prefix: the walk stops there,
returns the negative value, drops only the positive returners of the prefix,
and keeps the negative returner and everything after it. -/
lemma trigger_callbacks_neg (pre : List Callback) (c : Callback) (post : List Callback)
    (h : ∀ d ∈ pre, 0 ≤ d.ret) (hc : c.ret < 0) :
    trigger_callbacks (pre ++ c :: post) =
      (c.ret, pre.filter (fun d => d.ret == 0) ++ c :: post,
        pre.map (fun d => d.id) ++ [c.id]) := by
  induction pre with
  | nil => simp [trigger_callbacks, hc]
  | cons d pre' ih =>
    have hd : 0 ≤ d.ret := h d (List.mem_cons_self d pre')
    have hrest := ih (fun e he => h e (List.mem_cons_of_mem d he))
    have hlt : ¬ d.ret < 0 := not_lt.mpr hd
    by_cases hz : d.ret = 0
    · simp [trigger_callbacks, hrest, hz, hlt, List.filter]
    · have hb : (d.ret == 0) = false := beq_eq_false_iff_ne.mpr hz
      simp [trigger_callbacks, hrest, hz, hlt, hb, List.filter]

/-- C3 (counterexample): the claim says every callback returning a non-zero
value is removed after delivery.  A single callback returning -1 returns a
non-zero value, the delivery short-circuits with -1, yet the callback is
still registered afterwards: the code returns before reaching
`drop_callback` when the return is negative. -/
theorem trigger_callbacks_negative_kept_cex :
    ((-1 : Int) ≠ 0) ∧
    trigger_callbacks [{ id := 0, ret := -1 }] =
      (-1, [{ id := 0, ret := -1 }], [0]) := by
  refine ⟨by decide, by decide⟩

/-- C3 (amended): callbacks are invoked in registration order; a callback
returning a *positive* value is removed after delivery; a negative return
short-circuits event delivery with that error, and the negatively returning
callback together with every later callback stays registered (zero returners
are always kept). -/
theorem trigger_callbacks_spec (cbs : List Callback) :
    ((∀ c ∈ cbs, 0 ≤ c.ret) →
      trigger_callbacks cbs =
        (0, cbs.filter (fun c => c.ret == 0), cbs.map (fun c => c.id))) ∧
    (∀ pre c post, cbs = pre ++ c :: post → (∀ d ∈ pre, 0 ≤ d.ret) → c.ret < 0 →
      trigger_callbacks cbs =
        (c.ret, pre.filter (fun d => d.ret == 0) ++ c :: post,
          pre.map (fun d => d.id) ++ [c.id])) := by
  constructor
  · exact trigger_callbacks_nonneg cbs
  · intro pre c post hsplit hpre hc
    rw [hsplit]
    exact trigger_callbacks_neg pre c post hpre hc

/-- C3 (witness): the amended callback rule applied to the concrete list
`[id 1 returning 0, id 2 returning -7, id 3 returning 4]`: ids 1 and 2 run
in order, delivery stops with -7, and only the positive returner would have
been dropped (none in the prefix). -/
theorem trigger_callbacks_spec_witness :
    trigger_callbacks
        [{ id := 1, ret := 0 }, { id := 2, ret := -7 }, { id := 3, ret := 4 }] =
      (-7, [{ id := 1, ret := 0 }, { id := 2, ret := -7 }, { id := 3, ret := 4 }], [1, 2]) :=
  (trigger_callbacks_spec _).2 [{ id := 1, ret := 0 }] { id := 2, ret := -7 }
    [{ id := 3, ret := 4 }] rfl (by decide) (by decide)

/-- C9 (confirmed): `ty_board_matches_identity` parses its argument as
`[location][#serial]` where either side may be empty; a NULL or empty spec
matches every board; a parse that produced a location part matches only
boards with exactly that location; a parse that produced a nonzero serial
matches only boards with exactly that serial, while a zero serial part
matches any board serial; and a malformed serial part fails, always with a
`param` error. -/
theorem matches_identity_spec (bloc : List Char) (bserial : Nat) :
    ty_board_matches_identity bloc bserial none = .ok true ∧
    ty_board_matches_identity bloc bserial (some []) = .ok true ∧
    (∀ s e, parse_identity s = .error e → e = .param) ∧
    (∀ s l n, s ≠ [] → parse_identity s = .ok (l, n) →
      (ty_board_matches_identity bloc bserial (some s) = .ok true ↔
        ((l = none ∨ l = some bloc) ∧ (n = 0 ∨ n = bserial)))) ∧
    (∀ s e, s ≠ [] → parse_identity s = .error e →
      ty_board_matches_identity bloc bserial (some s) = .error e) := by
  refine ⟨rfl, rfl, ?_, ?_, ?_⟩
  · intro s e h
    unfold parse_identity at h
    rcases hsp : splitAtHash s with _ | ⟨before, after⟩ <;> rw [hsp] at h
    · simp at h
    · simp only [] at h
      split at h
      · cases h; rfl
      · simp at h
  · intro s l n hne hp
    have hsE : s.isEmpty = false := by
      cases s with
      | nil => exact absurd rfl hne
      | cons a t => rfl
    simp only [ty_board_matches_identity, hsE, Bool.false_eq_true, if_false, hp]
    rcases l with _ | l'
    · simp only []
      by_cases h0 : n = 0
      · simp [h0]
      · by_cases hb : n = bserial
        · simp [h0, hb]
        · simp [h0, hb]
    · by_cases hl : l' = bloc
      · subst hl
        simp only [decide_not, decide_True, Bool.not_true, Bool.false_eq_true, if_false]
        by_cases h0 : n = 0
        · simp [h0]
        · by_cases hb : n = bserial
          · simp [h0, hb]
          · simp [h0, hb]
      · have : (decide ¬ (l' = bloc)) = true := by simp [hl]
        simp only [decide_not, this, if_true]
        simp [hl]
  · intro s e hne hp
    have hsE : s.isEmpty = false := by
      cases s with
      | nil => exact absurd rfl hne
      | cons a t => rfl
    simp only [ty_board_matches_identity, hsE, Bool.false_eq_true, if_false, hp]

/-- C9 (witness): the matching rule applied to board location `"usb-1-2"`,
serial 5, and the canonical spec `"usb-1-2#5"`. -/
theorem matches_identity_spec_witness :
    ty_board_matches_identity "usb-1-2".toList 5 (some "usb-1-2#5".toList) = .ok true :=
  ((matches_identity_spec "usb-1-2".toList 5).2.2.2.1 "usb-1-2#5".toList
      (some "usb-1-2".toList) 5 (by decide) (by decide)).mpr (by decide)

/-- C6 (confirmed): `ty_board_upload` fails with `mode` when the upload
capability is absent; with the capability present and a valid board model it
fails with `range` when the firmware exceeds the model's `code_size`, fails
with `firmware` (unless `nocheck`) when the signature scan recognises no
model or a model other than the board's, and invokes the vtable upload
(`.ok ()`) exactly when every check passes. -/
theorem ty_board_upload_checks (codeSize : ModelId → Nat) (bmodel : Option ModelId)
    (m : ModelId) (fw : List Nat) (nocheck : Bool)
    (hm : bmodel = some m) (hcs : codeSize m ≠ 0) :
    (∀ fw2 nc2, ty_board_upload codeSize false bmodel fw2 nc2 = .error .mode) ∧
    (fw.length > codeSize m → ty_board_upload codeSize true bmodel fw nocheck = .error .range) ∧
    (fw.length ≤ codeSize m → ty_board_test_firmware fw = none →
        ty_board_upload codeSize true bmodel fw false = .error .firmware) ∧
    (∀ g, fw.length ≤ codeSize m → ty_board_test_firmware fw = some g → g ≠ m →
        ty_board_upload codeSize true bmodel fw false = .error .firmware) ∧
    (ty_board_upload codeSize true bmodel fw nocheck = .ok () ↔
      (fw.length ≤ codeSize m ∧ (nocheck = true ∨ ty_board_test_firmware fw = some m))) := by
  subst hm
  refine ⟨fun fw2 nc2 => rfl, ?_, ?_, ?_, ?_⟩
  · intro hgt
    simp [ty_board_upload, hcs, hgt]
  · intro hle hnone
    have hnle : ¬ fw.length > codeSize m := not_lt.mpr hle
    simp [ty_board_upload, hcs, hnle, hnone]
  · intro g hle hg hne
    have hnle : ¬ fw.length > codeSize m := not_lt.mpr hle
    simp [ty_board_upload, hcs, hnle, hg, hne]
  · constructor
    · intro h
      by_cases hgt : fw.length > codeSize m
      · simp [ty_board_upload, hcs, hgt] at h
      · refine ⟨not_lt.mp hgt, ?_⟩
        cases hnc : nocheck with
        | true => exact Or.inl rfl
        | false =>
          refine Or.inr ?_
          rcases htf : ty_board_test_firmware fw with _ | g
          · simp [ty_board_upload, hcs, hgt, hnc, htf] at h
          · by_cases hgm : g = m
            · rw [hgm]
            · simp [ty_board_upload, hcs, hgt, hnc, htf, hgm] at h
    · rintro ⟨hle, hor⟩
      have hnle : ¬ fw.length > codeSize m := not_lt.mpr hle
      rcases hor with hnc | htf
      · simp [ty_board_upload, hcs, hnle, hnc]
      · cases hnc : nocheck with
        | true => simp [ty_board_upload, hcs, hnle, hnc]
        | false => simp [ty_board_upload, hcs, hnle, hnc, htf]

/-- C6 (witness): all checks pass for a teensy_31 board, a 9-byte image
carrying the teensy_31 signature at offset 0, and `nocheck` unset: the
vtable upload runs. -/
theorem ty_board_upload_checks_witness :
    ty_board_upload codeSize0 true (some ModelId.teensy_31)
        [0x30, 0x80, 0x04, 0x40, 0x82, 0x3F, 0x04, 0x00, 0x00] false = .ok () :=
  ((ty_board_upload_checks codeSize0 (some ModelId.teensy_31) ModelId.teensy_31
      [0x30, 0x80, 0x04, 0x40, 0x82, 0x3F, 0x04, 0x00, 0x00] false rfl
      (by decide)).2.2.2.2).mpr ⟨by decide, Or.inr (by decide)⟩

/-- C10 (confirmed): on a board exposing the serial capability, a zero
`size` makes `ty_board_serial_write` treat the buffer as a NUL-terminated
string and hand `strlen(buf)` bytes to the vtable — not zero bytes (the
count is nonzero whenever the buffer does not start with a NUL) — while a
nonzero `size` is passed through unchanged. -/
theorem serial_write_size_zero_spec (buf : List Nat) :
    ty_board_serial_write true buf 0 = .ok (strlenC buf) ∧
    (∀ b bs, buf = b :: bs → b ≠ 0 → strlenC buf ≠ 0) ∧
    (∀ size, size ≠ 0 → ty_board_serial_write true buf size = .ok size) := by
  refine ⟨rfl, ?_, ?_⟩
  · intro b bs hbuf hb
    subst hbuf
    have hbne : (b != 0) = true := by simp [hb]
    simp [strlenC, List.takeWhile, hbne]
  · intro size hs
    simp [ty_board_serial_write, hs]

/-- C10 (witness): writing the buffer `"Hi\0!"` with `size = 0` hands
exactly `strlen` = 2 bytes to the vtable. -/
theorem serial_write_size_zero_spec_witness :
    ty_board_serial_write true [72, 105, 0, 33] 0 = .ok (strlenC [72, 105, 0, 33]) ∧
    strlenC [72, 105, 0, 33] ≠ 0 :=
  ⟨(serial_write_size_zero_spec [72, 105, 0, 33]).1,
    (serial_write_size_zero_spec [72, 105, 0, 33]).2.1 72 [105, 0, 33] rfl (by decide)⟩

/-- C8 (confirmed): with a finalize callable attached, `finalize` is invoked
exactly once over the task's lifetime on either path: `run_task` invokes it
once and clears it (so the final unref finds nothing to run), and a task
destroyed without ever running has it invoked once by the final unref. -/
theorem finalize_runs_once (t : Task) (h : t.finalizeAttached = true) :
    (∀ ran, finalize_calls_lifecycle t ran = 1) ∧
    (run_task t).1.finalizeAttached = false ∧
    (run_task t).2.2 = 1 ∧
    task_unref_finalize_calls (run_task t).1 = 0 := by
  refine ⟨?_, rfl, by simp [run_task, h], by simp [run_task, task_unref_finalize_calls]⟩
  intro ran
  cases ran <;>
    simp [finalize_calls_lifecycle, run_task, task_unref_finalize_calls, h]

/-- C8 (witness): a fresh task with finalize attached sees exactly one
finalize call, whether it runs before destruction or not. -/
theorem finalize_runs_once_witness :
    finalize_calls_lifecycle (newTask true) true = 1 ∧
    finalize_calls_lifecycle (newTask true) false = 1 :=
  ⟨(finalize_runs_once (newTask true) rfl).1 true,
    (finalize_runs_once (newTask true) rfl).1 false⟩

/-- C7 (counterexample): the claim says a failed worker-thread spawn with
`started > 0` is recoverable for `ty_task_start` too (success reported, task
queued).  On `pool1` (one busy worker, limit 2), a spawn failure makes
`ty_task_start` return the error — the `goto cleanup` sits before the task
is referenced and enqueued. -/
theorem task_start_spawn_failure_cex :
    0 < pool1.started ∧ pool1.busy = pool1.started ∧ pool1.started < pool1.maxThreads ∧
    ty_task_start_pool (some TyErr.memory) pool1 7 = .error .memory := by
  exact ⟨by decide, rfl, by decide, by decide⟩

/-- The `set_max_threads` spawn loop never errors once a thread is already
started, and it never touches the pending queue. -/
lemma set_max_go_spec (spawnErr : Nat → Option TyErr) (max : Nat) :
    ∀ pend k p, p.started ≠ 0 →
      (set_max_go spawnErr max pend k p).2.1 = none ∧
      (set_max_go spawnErr max pend k p).1.pending = p.pending := by
  intro pend
  induction pend with
  | nil => intro k p _; exact ⟨rfl, rfl⟩
  | cons x rest ih =>
    intro k p h
    by_cases hge : p.started ≥ max
    · simp [set_max_go, hge]
    · cases hsp : spawnErr k with
      | some e => simp [set_max_go, hge, hsp, h]
      | none =>
        have hrec := ih (k + 1) { p with started := p.started + 1, busy := p.busy + 1 }
          (Nat.succ_ne_zero _)
        simpa [set_max_go, hge, hsp] using hrec

/-- C7 (amended): a failed worker-thread spawn with `started > 0` is
recoverable only in `ty_pool_set_max_threads`, which reports success with
every pending task still queued; `ty_task_start`, by contrast, propagates
the spawn error whenever it attempted a spawn (`busy == started <
max_threads`), without enqueueing the task. -/
theorem pool_spawn_failure_spec (spawnErr : Nat → Option TyErr) (p : Pool) (max : Nat)
    (taskId : Nat) (e : TyErr) (h : p.started ≠ 0) :
    (∃ q, ty_pool_set_max_threads spawnErr p max = .ok q ∧ q.pending = p.pending) ∧
    (p.busy = p.started → p.started < p.maxThreads →
      ty_task_start_pool (some e) p taskId = .error e) := by
  constructor
  · unfold ty_pool_set_max_threads
    by_cases hmax : max > p.maxThreads
    · rw [if_pos hmax]
      obtain ⟨h1, h2⟩ := set_max_go_spec spawnErr max p.pending 0 p h
      simp only [h1]
      by_cases hc : (set_max_go spawnErr max p.pending 0 p).2.2
      · refine ⟨{ (set_max_go spawnErr max p.pending 0 p).1 with maxThreads := max }, ?_, h2⟩
        rw [if_pos hc]
      · refine ⟨(set_max_go spawnErr max p.pending 0 p).1, ?_, h2⟩
        rw [if_neg hc]
    · rw [if_neg hmax]
      exact ⟨_, rfl, rfl⟩
  · intro hb hlt
    simp [ty_task_start_pool, hb, hlt, start_thread]

/-- C7 (witness): raising the limit of a one-worker pool with a queued task
while every spawn fails still reports success and keeps the task queued;
the same failing spawn makes `ty_task_start` on `pool1` error out. -/
theorem pool_spawn_failure_spec_witness :
    (∃ q, ty_pool_set_max_threads (fun _ => some TyErr.memory)
        { maxThreads := 1, started := 1, busy := 1, pending := [9] } 3 = .ok q ∧
        q.pending = [9]) ∧
    ty_task_start_pool (some TyErr.memory) pool1 7 = .error TyErr.memory :=
  ⟨(pool_spawn_failure_spec (fun _ => some TyErr.memory)
      { maxThreads := 1, started := 1, busy := 1, pending := [9] } 3 7 TyErr.memory
      (by decide)).1,
    (pool_spawn_failure_spec (fun _ => some TyErr.memory) pool1 2 7 TyErr.memory
      (by decide)).2 rfl (by decide)⟩

/-- One lifecycle step writes a status chain that decreases only at the
`waitFinishedInf` demotion, ends at the new status, and preserves
queue-status coherence. -/
lemma step_chain (t : Task) (op : TaskOp) (t' : Task) (w : List TaskStatus)
    (hq : QueueInv t) (h : op.step t = some (t', w)) :
    List.Chain' StatusStep (t.status :: w) ∧
    (t.status :: w).getLast? = some t'.status ∧
    QueueInv t' := by
  cases op with
  | start =>
    simp only [TaskOp.step] at h
    split at h
    · rename_i hs
      cases h
      rw [hs]
      exact ⟨List.Chain.cons (by decide) List.Chain.nil, rfl, fun _ => rfl⟩
    · cases h
  | workerRun =>
    simp only [TaskOp.step] at h
    split at h
    · rename_i hin
      have hs : t.status = .pending := hq hin
      cases h
      rw [hs]
      refine ⟨?_, rfl, ?_⟩
      · simp only [run_task]
        exact List.Chain.cons (by decide) (List.Chain.cons (by decide) List.Chain.nil)
      · intro habs
        simp [run_task] at habs
    · cases h
  | waitFinishedInf =>
    simp only [TaskOp.step] at h
    split at h
    · rename_i hs
      split at h
      · rename_i hin
        cases h
        rw [hs]
        refine ⟨?_, rfl, ?_⟩
        · simp only [run_task]
          exact List.Chain.cons (by decide)
            (List.Chain.cons (by decide) (List.Chain.cons (by decide) List.Chain.nil))
        · intro habs
          simp [run_task] at habs
      · rename_i hin
        cases h
        exact ⟨List.chain'_singleton _, rfl, hq⟩
    · rename_i hns
      split at h
      · rename_i hs
        cases h
        rw [hs]
        refine ⟨?_, rfl, ?_⟩
        · simp only [run_task]
          exact List.Chain.cons (by decide) (List.Chain.cons (by decide) List.Chain.nil)
        · intro habs
          simp only [run_task] at habs
          exact absurd (hq habs) hns
      · cases h
        exact ⟨List.chain'_singleton _, rfl, hq⟩

/-- Over any valid operation sequence, the accumulated status trace is a
`StatusStep` chain ending at the final status, and coherence is kept. -/
lemma runOps_chain :
    ∀ ops t t' w, QueueInv t → runOps t ops = some (t', w) →
      List.Chain' StatusStep (t.status :: w) ∧
      (t.status :: w).getLast? = some t'.status ∧
      QueueInv t' := by
  intro ops
  induction ops with
  | nil =>
    intro t t' w hq h
    cases h
    exact ⟨List.chain'_singleton _, rfl, hq⟩
  | cons op ops ih =>
    intro t t' w hq h
    rcases hstep : op.step t with _ | ⟨t1, w1⟩
    · simp only [runOps, hstep] at h
      cases h
    · simp only [runOps, hstep] at h
      rcases hrun : runOps t1 ops with _ | ⟨t2, w2⟩
      · simp only [hrun] at h
        cases h
      · simp only [hrun] at h
        have hpair := Option.some.inj h
        have ht : t' = t2 := (Prod.ext_iff.mp hpair).1.symm
        have hw2 : w = w1 ++ w2 := (Prod.ext_iff.mp hpair).2.symm
        subst ht
        subst hw2
        obtain ⟨c1, l1, q1⟩ := step_chain t op t1 w1 hq hstep
        obtain ⟨c2, l2, q2⟩ := ih t1 t' w2 q1 hrun
        refine ⟨?_, ?_, q2⟩
        · have heq : t.status :: (w1 ++ w2) = (t.status :: w1) ++ w2 := by simp
          rw [heq]
          refine List.Chain'.append c1 c2.tail ?_
          intro x hx y hy
          rw [l1] at hx
          have hx' : t1.status = x := by simpa using hx
          subst hx'
          exact c2.rel_head? hy
        · cases w2 with
          | nil =>
            have : t1.status = t'.status := by simpa using l2
            simpa [this] using l1
          | cons y ys =>
            have : (t.status :: (w1 ++ y :: ys)).getLast? = (y :: ys).getLast? := by
              rw [show t.status :: (w1 ++ y :: ys) = (t.status :: w1) ++ y :: ys by simp]
              exact List.getLast?_append_of_ne_nil _ (by simp)
            rw [this]
            simpa [List.getLast?_cons_cons] using l2

/-- C4 (counterexample): the claim says no operation — `ty_task_wait` with
target finished and infinite timeout included — ever moves a task's status
to a smaller value.  Starting a fresh task and then calling
`ty_task_wait(task, FINISHED, -1)` produces the status write sequence
`ready, pending, ready, running, finished`: line 424 of `task.c` writes the
queued pending task back to ready before running it inline, a strict
decrease under the order ready < pending < running < finished. -/
theorem task_wait_demotes_status_cex :
    runOps (newTask true) [TaskOp.start, TaskOp.waitFinishedInf] =
      some ({ status := .finished, inQueue := false, finalizeAttached := false },
        [.pending, .ready, .running, .finished]) ∧
    ¬ List.Chain' (fun a b => a.toNat ≤ b.toNat)
        (TaskStatus.ready ::
          [TaskStatus.pending, TaskStatus.ready, TaskStatus.running, TaskStatus.finished]) := by
  refine ⟨by decide, ?_⟩
  intro hmono
  exact absurd hmono.tail.rel_head (by decide)

/-- C4 (amended): for every task, the status write sequence follows the
order ready < pending < running < finished and never decreases, except that
`ty_task_wait` with target finished and infinite timeout may demote a
still-queued pending task back to ready (dequeuing it) before running it
inline: every decrease in the trace is exactly a pending-to-ready step. -/
theorem task_status_monotone_spec (fin : Bool) (ops : List TaskOp) (t' : Task)
    (w : List TaskStatus) (h : runOps (newTask fin) ops = some (t', w)) :
    List.Chain' StatusStep (TaskStatus.ready :: w) :=
  (runOps_chain ops (newTask fin) t' w (fun hq => by simp [newTask] at hq) h).1

/-- C4 (witness): the amended monotonicity applied to the start-then-worker
scenario, whose trace is ready, pending, running, finished. -/
theorem task_status_monotone_spec_witness :
    List.Chain' StatusStep
      (TaskStatus.ready ::
        [TaskStatus.pending, TaskStatus.running, TaskStatus.finished]) :=
  task_status_monotone_spec false [TaskOp.start, TaskOp.workerRun]
    { status := .finished, inQueue := false, finalizeAttached := false }
    [.pending, .running, .finished] (by decide)

end TyTools
